import Mathlib

/-!
Shallow embedding of the fastTinker code-execution engine.

The engine lives in the Electron main process (child-process spawning,
result-protocol parsing, cancellation registry) and in the renderer
(magic-comment extraction, auto-log transforms, result display).  JavaScript
runtime values are modelled by the inductive type below; JavaScript builtins
used by the source (String.prototype methods, JSON.parse, JSON.stringify,
Number.prototype.toString) are modelled as explicit Lean functions.
-/

/-- A JavaScript runtime value, as far as the engine observes them: the
results resolved by the close handlers are either object literals built in
the handler code or arbitrary values produced by JSON.parse.  Numbers keep
their source lexeme so that no floating-point semantics is needed. -/
inductive JSValue where
  | undef : JSValue
  | null : JSValue
  | bool (b : Bool) : JSValue
  | num (lexeme : String) : JSValue
  | str (s : String) : JSValue
  | arr (elems : List JSValue) : JSValue
  | obj (fields : List (String × JSValue)) : JSValue
  | func (src : String) : JSValue

/-- JavaScript property lookup on an object field list.  JSON.parse keeps the
last occurrence of a duplicated key, which the parser below models by storing
fields in order and looking the key up from the right. -/
def getField (fields : List (String × JSValue)) (key : String) : Option JSValue :=
  (fields.reverse.find? (fun p => p.1 == key)).map (·.2)

/-! ### JavaScript string builtins -/

/-- Characters treated as whitespace by the JavaScript `\s` class and by
`String.prototype.trim` (ASCII part; the unicode spaces never occur in the
inputs the engine handles). -/
def jsWhitespace (c : Char) : Bool :=
  [' ', '\t', '\n', '\r', '\x0b', '\x0c'].contains c

/-- Helper for indexOf: the offset of the first occurrence of `pat` in `hay`. -/
def findSubFrom (pat : List Char) : List Char → Option Nat
  | [] => if pat = [] then some 0 else none
  | h :: t => if pat.isPrefixOf (h :: t) then some 0 else (findSubFrom pat t).map (· + 1)

/-- Models `String.prototype.indexOf(pat, fromIdx)`: -1 when absent, with the
start position clamped into the string as the ECMAScript spec does. -/
def jsIndexOfFrom (s pat : String) (fromIdx : Int) : Int :=
  let start := min fromIdx.toNat s.data.length
  match findSubFrom pat.data (s.data.drop start) with
  | some k => Int.ofNat (start + k)
  | none => -1

/-- Models `String.prototype.indexOf(pat)`. -/
def jsIndexOf (s pat : String) : Int := jsIndexOfFrom s pat 0

/-- Models `String.prototype.includes(pat)`. -/
def jsIncludes (s pat : String) : Bool := jsIndexOf s pat != -1

/-- Models `String.prototype.startsWith(pat)`. -/
def jsStartsWith (s pat : String) : Bool := pat.data.isPrefixOf s.data

/-- Models `String.prototype.endsWith(pat)`. -/
def jsEndsWith (s pat : String) : Bool := pat.data.isSuffixOf s.data

/-- Models `String.prototype.trim`. -/
def jsTrim (s : String) : String :=
  (((s.data.dropWhile jsWhitespace).reverse.dropWhile jsWhitespace).reverse).asString

/-- Models `String.prototype.substring(a, b)`: clamps both indices into the
string and swaps them when given in reverse order. -/
def jsSubstring (s : String) (a b : Int) : String :=
  let len := s.data.length
  let ia := min (max a 0).toNat len
  let ib := min (max b 0).toNat len
  (((s.data.drop (min ia ib)).take (max ia ib - min ia ib))).asString

/-- Models character indexing `s[i]` (None when out of range, which compares
unequal to any character, as `undefined` does in the source). -/
def jsCharAt (s : String) (i : Nat) : Option Char := s.data.get? i

/-- Models `String.prototype.split("\n")` at the character-list level. -/
def splitLinesList : List Char → List (List Char)
  | [] => [[]]
  | c :: cs =>
    let r := splitLinesList cs
    if c = '\n' then [] :: r
    else
      match r with
      | [] => [[c]]
      | l :: ls => (c :: l) :: ls

/-- Models `Array.prototype.join("\n")` at the character-list level. -/
def joinLinesList : List (List Char) → List Char
  | [] => []
  | [l] => l
  | l :: ls => l ++ '\n' :: joinLinesList ls

/-- Models `code.split("\n")` on strings. -/
def jsSplitNewline (s : String) : List String :=
  (splitLinesList s.data).map (·.asString)

/-- Models `lines.join("\n")` on strings. -/
def joinNewline (ls : List String) : String :=
  (joinLinesList (ls.map (·.data))).asString

/-! ### A model of the JSON.parse builtin

The close handlers call `JSON.parse` on extracted substrings and on
regex-matched substrings; any failure throws a SyntaxError that the
surrounding try/catch converts into a synthetic error result.  The model
below implements the JSON grammar; failure is `none`. -/

/-- Whitespace accepted between JSON tokens. -/
def jsonWsChar (c : Char) : Bool :=
  [' ', '\t', '\n', '\r'].contains c

/-- Hexadecimal digit value for \uXXXX escapes. -/
def hexDigitVal (c : Char) : Option Nat :=
  if c.isDigit then some (c.toNat - 48)
  else if 'a' ≤ c && c ≤ 'f' then some (c.toNat - 87)
  else if 'A' ≤ c && c ≤ 'F' then some (c.toNat - 55)
  else none

/-- Single-character JSON string escapes. -/
def jsonSimpleEscape : Char → Option Char
  | '"' => some '"'
  | '/' => some '/'
  | '\\' => some '\\'
  | 'b' => some '\x08'
  | 't' => some '\t'
  | 'n' => some '\n'
  | 'f' => some '\x0c'
  | 'r' => some '\r'
  | _ => none

/-- Strips a literal keyword from the front of the input, for the null, true
and false tokens. -/
def stripKeyword (w : String) (cs : List Char) : Option (List Char) :=
  if w.data.isPrefixOf cs then some (cs.drop w.data.length) else none

/-- Parses the body of a JSON string after the opening quote; returns the
decoded content and the input after the closing quote. -/
def parseJsonStringBody : List Char → Option (List Char × List Char)
  | [] => none
  | '"' :: rest => some ([], rest)
  | '\\' :: 'u' :: h1 :: h2 :: h3 :: h4 :: rest =>
    match hexDigitVal h1, hexDigitVal h2, hexDigitVal h3, hexDigitVal h4 with
    | some a, some b, some c, some d =>
      (parseJsonStringBody rest).map
        (fun p => (Char.ofNat (((a * 16 + b) * 16 + c) * 16 + d) :: p.1, p.2))
    | _, _, _, _ => none
  | '\\' :: e :: rest =>
    match jsonSimpleEscape e with
    | some c => (parseJsonStringBody rest).map (fun p => (c :: p.1, p.2))
    | none => none
  | c :: rest =>
    if c.toNat < 32 then none
    else (parseJsonStringBody rest).map (fun p => (c :: p.1, p.2))

/-- Parses a JSON number, returning its lexeme and the remaining input. -/
def parseJsonNumber (cs : List Char) : Option (List Char × List Char) :=
  let (sign, cs1) : List Char × List Char :=
    match cs with
    | '-' :: t => (['-'], t)
    | _ => ([], cs)
  let intPart : Option (List Char × List Char) :=
    match cs1 with
    | '0' :: t => some (['0'], t)
    | c :: t =>
      if c.isDigit then some (c :: t.takeWhile Char.isDigit, t.dropWhile Char.isDigit)
      else none
    | [] => none
  match intPart with
  | none => none
  | some (ip, rest1) =>
    let (fp, rest2) : List Char × List Char :=
      match rest1 with
      | '.' :: t =>
        let ds := t.takeWhile Char.isDigit
        if ds = [] then ([], rest1) else ('.' :: ds, t.dropWhile Char.isDigit)
      | _ => ([], rest1)
    if fp = [] && rest1 ≠ rest2 then none
    else
      match rest2 with
      | e :: t =>
        if e == 'e' || e == 'E' then
          let (es, t2) : List Char × List Char :=
            match t with
            | '+' :: t2 => (['+'], t2)
            | '-' :: t2 => (['-'], t2)
            | _ => ([], t)
          let ds := t2.takeWhile Char.isDigit
          if ds = [] then none
          else some (sign ++ ip ++ fp ++ e :: es ++ ds, t2.dropWhile Char.isDigit)
        else some (sign ++ ip ++ fp, rest2)
      | [] => some (sign ++ ip ++ fp, rest2)

mutual

/-- Parses one JSON value (fuel-indexed to make the mutual recursion on the
grammar obviously terminating; the fuel given by jsonParse is always
sufficient because every nesting step consumes input). -/
def parseJsonValue : Nat → List Char → Option (JSValue × List Char)
  | 0, _ => none
  | Nat.succ fuel, cs0 =>
    match cs0.dropWhile jsonWsChar with
    | [] => none
    | c :: rest =>
      if c == '"' then (parseJsonStringBody rest).map (fun p => (.str p.1.asString, p.2))
      else if c == '[' then
        match rest.dropWhile jsonWsChar with
        | ']' :: r => some (.arr [], r)
        | _ => (parseJsonItems fuel rest).map (fun p => (.arr p.1, p.2))
      else if c == '{' then
        match rest.dropWhile jsonWsChar with
        | '}' :: r => some (.obj [], r)
        | _ => (parseJsonMembers fuel rest).map (fun p => (.obj p.1, p.2))
      else if c == 'n' then (stripKeyword "null" (c :: rest)).map (fun r => (JSValue.null, r))
      else if c == 't' then (stripKeyword "true" (c :: rest)).map (fun r => (JSValue.bool true, r))
      else if c == 'f' then (stripKeyword "false" (c :: rest)).map (fun r => (JSValue.bool false, r))
      else if c == '-' || c.isDigit then
        (parseJsonNumber (c :: rest)).map (fun p => (.num p.1.asString, p.2))
      else none

/-- Parses the comma-separated items of a nonempty JSON array, up to and
including the closing bracket. -/
def parseJsonItems : Nat → List Char → Option (List JSValue × List Char)
  | 0, _ => none
  | Nat.succ fuel, cs =>
    match parseJsonValue fuel cs with
    | none => none
    | some (v, rest) =>
      match rest.dropWhile jsonWsChar with
      | ',' :: rest2 => (parseJsonItems fuel rest2).map (fun p => (v :: p.1, p.2))
      | ']' :: rest2 => some ([v], rest2)
      | _ => none

/-- Parses the members of a nonempty JSON object, up to and including the
closing brace. -/
def parseJsonMembers : Nat → List Char → Option (List (String × JSValue) × List Char)
  | 0, _ => none
  | Nat.succ fuel, cs0 =>
    match cs0.dropWhile jsonWsChar with
    | '"' :: rest =>
      match parseJsonStringBody rest with
      | none => none
      | some (key, rest2) =>
        match rest2.dropWhile jsonWsChar with
        | ':' :: rest3 =>
          match parseJsonValue fuel rest3 with
          | none => none
          | some (v, rest4) =>
            match rest4.dropWhile jsonWsChar with
            | ',' :: rest5 => (parseJsonMembers fuel rest5).map (fun p => ((key.asString, v) :: p.1, p.2))
            | '}' :: rest5 => some ([(key.asString, v)], rest5)
            | _ => none
        | _ => none
    | _ => none

end

/-- Models `JSON.parse`: parse one value, allow trailing whitespace only. -/
def jsonParse (s : String) : Option JSValue :=
  match parseJsonValue (2 * s.data.length + 2) s.data with
  | some (v, rest) => if rest.dropWhile jsonWsChar = [] then some v else none
  | none => none

/-- Models the regex match `stdout.match(/\x7b[\s\S]*\x7d/)` used as payload
recovery in both close handlers: the leftmost opening brace together with the
greedy run to the last closing brace; `none` when the regex does not match. -/
def jsonObjMatch (s : String) : Option String :=
  match s.data.findIdx? (· == '{') with
  | none => none
  | some i =>
    match s.data.reverse.findIdx? (· == '}') with
    | none => none
    | some k =>
      let j := s.data.length - 1 - k
      if i < j then some (((s.data.drop i).take (j + 1 - i)).asString) else none

/-! ### A small regular-expression engine

The renderer decides transform candidacy with JavaScript regex tests.  These
are pure regular languages (no captures or lookarounds), modelled here with
Brzozowski derivatives; `matchList` decides anchored (whole-string)
membership, `reSearch` unanchored `test`. -/

/-- Regular expressions over characters; classes carry their predicate. -/
inductive RE where
  | emp : RE
  | eps : RE
  | cls (p : Char → Bool) : RE
  | alt (a b : RE) : RE
  | cat (a b : RE) : RE
  | star (a : RE) : RE

/-- Single literal character. -/
def RE.chr (c : Char) : RE := .cls (fun d => d == c)

def RE.nullable : RE → Bool
  | .emp => false
  | .eps => true
  | .cls _ => false
  | .alt a b => a.nullable || b.nullable
  | .cat a b => a.nullable && b.nullable
  | .star _ => true

def RE.deriv : RE → Char → RE
  | .emp, _ => .emp
  | .eps, _ => .emp
  | .cls p, c => if p c then .eps else .emp
  | .alt a b, c => .alt (a.deriv c) (b.deriv c)
  | .cat a b, c => if a.nullable then .alt (.cat (a.deriv c) b) (b.deriv c) else .cat (a.deriv c) b
  | .star a, c => .cat (a.deriv c) (.star a)

/-- Anchored match of the whole character list. -/
def RE.matchList : RE → List Char → Bool
  | r, [] => r.nullable
  | r, c :: cs => (r.deriv c).matchList cs

/-- Unanchored `RegExp.prototype.test`: some substring matches. -/
def reSearch (r : RE) (s : String) : Bool :=
  (RE.cat (.star (.cls fun _ => true)) (RE.cat r (.star (.cls fun _ => true)))).matchList s.data

/-- Identifier characters of the JavaScript bare-expression pattern. -/
def jsIdentStartChar (c : Char) : Bool := c.isAlpha || c == '_' || c == '$'

def jsIdentChar (c : Char) : Bool := c.isAlphanum || c == '_' || c == '$'

def jsIdentRE : RE := .cat (.cls jsIdentStartChar) (.star (.cls jsIdentChar))

/-- One member/index/call group of the JavaScript bare-expression pattern:
a dot followed by an identifier, a bracket chunk without closing bracket
inside, or a paren chunk without closing paren inside. -/
def jsChainGroupRE : RE :=
  .alt (.cat (.chr '.') jsIdentRE)
    (.alt (.cat (.chr '[') (.cat (.star (.cls (fun c => c != ']'))) (.chr ']')))
      (.cat (.chr '(') (.cat (.star (.cls (fun c => c != ')'))) (.chr ')'))))

/-- The anchored `expressionPattern` of autoLogExpressions (the source repeats
the chain-group star twice, which denotes the same language). -/
def jsExpressionRE : RE := .cat jsIdentRE (.cat (.star jsChainGroupRE) (.star jsChainGroupRE))

def jsExpressionTest (s : String) : Bool := jsExpressionRE.matchList s.data

/-- The anchored simple-variable pattern of autoLogExpressions. -/
def jsSimpleVarTest (s : String) : Bool := jsIdentRE.matchList s.data

/-- Identifier characters of the PHP patterns (no dollar). -/
def phpIdentStartChar (c : Char) : Bool := c.isAlpha || c == '_'

def phpIdentChar (c : Char) : Bool := c.isAlphanum || c == '_'

def phpIdentRE : RE := .cat (.cls phpIdentStartChar) (.star (.cls phpIdentChar))

/-- The inner chunk after an arrow target: a lazy bracket chunk (any
non-line-terminator contents) or a paren chunk. -/
def phpInnerChunkRE : RE :=
  .alt (.cat (.chr '[') (.cat (.star (.cls (fun c => c != '\n' && c != '\r'))) (.chr ']')))
    (.cat (.chr '(') (.cat (.star (.cls (fun c => c != ')'))) (.chr ')')))

/-- One group of the PHP bare-expression pattern: an arrow access with
optional chunks, a bracket chunk, or a paren chunk. -/
def phpChainGroupRE : RE :=
  .alt (.cat (.chr '-') (.cat (.chr '>') (.cat phpIdentRE (.star phpInnerChunkRE))))
    (.alt (.cat (.chr '[') (.cat (.star (.cls (fun c => c != ']'))) (.chr ']')))
      (.cat (.chr '(') (.cat (.star (.cls (fun c => c != ')'))) (.chr ')'))))

/-- The anchored `phpExpressionPattern` of autoLogExpressionsPHP. -/
def phpExpressionRE : RE :=
  .cat (.chr '$') (.cat phpIdentRE (.cat (.star phpChainGroupRE) (.star phpChainGroupRE)))

def phpExpressionTest (s : String) : Bool := phpExpressionRE.matchList s.data

/-- The anchored PHP simple-variable pattern (dollar then identifier). -/
def phpSimpleVarTest (s : String) : Bool :=
  (RE.cat (.chr '$') phpIdentRE).matchList s.data

/-- The assignment detector regex: an equals sign, optional whitespace, then
a character that is not an equals sign. -/
def assignmentRE : RE :=
  .cat (.chr '=') (.cat (.star (.cls jsWhitespace)) (.cls (fun c => c != '=')))

/-! ### The renderer: auto-log transforms (autoLogExpressions and
autoLogExpressionsPHP in src/scripts/renderer.js) -/

/-- The loop state of both transforms. -/
structure ALState where
  inMultiLineComment : Bool
  braceDepth : Int
  parenDepth : Int
deriving DecidableEq

def autoLogInit : ALState := { inMultiLineComment := false, braceDepth := 0, parenDepth := 0 }

/-- Net brace count of a line by naive character counting. -/
def lineBraceDelta (line : String) : Int :=
  line.data.foldl (fun d c => d + (if c = '{' then 1 else 0) - (if c = '}' then 1 else 0)) 0

/-- Net paren count of a line by naive character counting. -/
def lineParenDelta (line : String) : Int :=
  line.data.foldl (fun d c => d + (if c = '(' then 1 else 0) - (if c = ')' then 1 else 0)) 0

/-- Models `trimmed.split(/\s|\(/)[0]`. -/
def firstWord (trimmed : String) : String :=
  (trimmed.data.takeWhile (fun c => !(jsWhitespace c || c == '('))).asString

/-- Models `trimmed.replace(/;$/, "")`. -/
def removeTrailingSemicolon (s : String) : String :=
  if s.data.getLast? = some ';' then s.data.dropLast.asString else s

def jsStatementKeywords : List String :=
  ["const", "let", "var", "function", "class", "if", "else", "for", "while",
   "do", "switch", "case", "default", "try", "catch", "finally", "throw",
   "return", "break", "continue", "import", "export", "async", "await", "yield",
   "debugger", "with", "enum", "interface", "type", "namespace"]

/-- The keyword alternatives of the final wrap-guard regex in
autoLogExpressions (an unanchored-at-end prefix match). -/
def jsWrapGuardKeywords : List String :=
  ["if", "for", "while", "switch", "catch", "function", "class", "const",
   "let", "var", "return", "break", "continue", "throw", "try", "else",
   "case", "default", "async", "await", "yield", "import", "export"]

def jsLeadingKeywordTest (trimmed : String) : Bool :=
  jsWrapGuardKeywords.any (fun k => jsStartsWith trimmed k)

/-- The assignment check of autoLogExpressions. -/
def jsHasAssignment (trimmed : String) : Bool :=
  reSearch assignmentRE trimmed && !jsIncludes trimmed "==" && !jsIncludes trimmed "===" &&
    !jsIncludes trimmed "!=" && !jsIncludes trimmed "!==" && !jsIncludes trimmed "=>"

/-- The guard that keeps already-logging lines untouched. -/
def jsConsoleCallGuard (withoutSemicolon : String) : Bool :=
  jsStartsWith (jsTrim withoutSemicolon) "console.log" ||
  jsStartsWith (jsTrim withoutSemicolon) "console.error" ||
  jsStartsWith (jsTrim withoutSemicolon) "console.warn" ||
  jsStartsWith (jsTrim withoutSemicolon) "console.info"

/-- One iteration of the autoLogExpressions loop: returns the updated state
and the line pushed to processedLines. -/
def autoLogStepJS (st : ALState) (line : String) : ALState × String :=
  let trimmed := jsTrim line
  if trimmed == "" || jsStartsWith trimmed "//" then (st, line)
  else if jsIncludes trimmed "/*" then
    ({ st with inMultiLineComment := !jsIncludes trimmed "*/" }, line)
  else if jsIncludes trimmed "*/" then ({ st with inMultiLineComment := false }, line)
  else if st.inMultiLineComment then (st, line)
  else
    let bd := st.braceDepth + lineBraceDelta line
    let pd := st.parenDepth + lineParenDelta line
    let st2 : ALState := { st with braceDepth := bd, parenDepth := pd }
    if jsStatementKeywords.contains (firstWord trimmed) || jsStartsWith trimmed "\x7b" ||
        jsStartsWith trimmed "\x7d" || jsEndsWith trimmed "\x7b" ||
        (jsIncludes trimmed ":" && !jsIncludes trimmed "?") then
      (st2, line)
    else
      let withoutSemicolon := removeTrailingSemicolon trimmed
      if !jsHasAssignment trimmed && bd ≤ 0 && pd ≤ 0 then
        if (jsExpressionTest withoutSemicolon || jsSimpleVarTest withoutSemicolon) &&
            withoutSemicolon.data.length > 0 && !jsLeadingKeywordTest trimmed then
          if jsConsoleCallGuard withoutSemicolon then (st2, line)
          else
            let indent := (line.data.takeWhile jsWhitespace).asString
            (st2, indent ++ "console.log(" ++ withoutSemicolon ++ ");")
        else (st2, line)
      else (st2, line)

def autoLogJSGo (st : ALState) : List String → List String
  | [] => []
  | l :: ls => (autoLogStepJS st l).2 :: autoLogJSGo (autoLogStepJS st l).1 ls

/-- Models autoLogExpressions in src/scripts/renderer.js. -/
def autoLogExpressions (code : String) : String :=
  if code == "" || jsTrim code == "" then code
  else joinNewline (autoLogJSGo autoLogInit (jsSplitNewline code))

def phpStatementKeywords : List String :=
  ["function", "class", "if", "else", "elseif", "for", "foreach", "while",
   "do", "switch", "case", "default", "try", "catch", "finally", "throw",
   "return", "break", "continue", "goto", "declare", "namespace", "use",
   "abstract", "final", "private", "public", "protected", "static", "const",
   "require", "require_once", "include", "include_once", "echo", "print",
   "print_r", "var_dump", "var_export"]

/-- The PHP assignment check (also excludes the spaceship operator). -/
def phpHasAssignment (trimmed : String) : Bool :=
  reSearch assignmentRE trimmed && !jsIncludes trimmed "==" && !jsIncludes trimmed "===" &&
    !jsIncludes trimmed "!=" && !jsIncludes trimmed "!==" && !jsIncludes trimmed "=>" &&
    !jsIncludes trimmed "<=>"

/-- The guard that keeps already-outputting PHP lines untouched. -/
def phpOutputCallGuard (withoutSemicolon : String) : Bool :=
  jsStartsWith (jsTrim withoutSemicolon) "echo" ||
  jsStartsWith (jsTrim withoutSemicolon) "print" ||
  jsStartsWith (jsTrim withoutSemicolon) "print_r" ||
  jsStartsWith (jsTrim withoutSemicolon) "var_dump" ||
  jsStartsWith (jsTrim withoutSemicolon) "var_export"

/-- One iteration of the autoLogExpressionsPHP loop. -/
def autoLogStepPHP (st : ALState) (line : String) : ALState × String :=
  let trimmed := jsTrim line
  if trimmed == "" || jsStartsWith trimmed "//" then (st, line)
  else if jsIncludes trimmed "/*" then
    ({ st with inMultiLineComment := !jsIncludes trimmed "*/" }, line)
  else if jsIncludes trimmed "*/" then ({ st with inMultiLineComment := false }, line)
  else if st.inMultiLineComment then (st, line)
  else
    let bd := st.braceDepth + lineBraceDelta line
    let pd := st.parenDepth + lineParenDelta line
    let st2 : ALState := { st with braceDepth := bd, parenDepth := pd }
    if phpStatementKeywords.contains (firstWord trimmed) || jsStartsWith trimmed "\x7b" ||
        jsStartsWith trimmed "\x7d" || jsEndsWith trimmed "\x7b" ||
        (jsIncludes trimmed ":" && !jsIncludes trimmed "?") then
      (st2, line)
    else
      let withoutSemicolon := removeTrailingSemicolon trimmed
      if !phpHasAssignment trimmed && bd ≤ 0 && pd ≤ 0 then
        if (phpExpressionTest withoutSemicolon || phpSimpleVarTest withoutSemicolon) &&
            withoutSemicolon.data.length > 0 then
          if phpOutputCallGuard withoutSemicolon then (st2, line)
          else
            let indent := (line.data.takeWhile jsWhitespace).asString
            if phpSimpleVarTest withoutSemicolon then
              (st2, indent ++ "echo var_export(" ++ withoutSemicolon ++ ", true) . \"\\n\";")
            else
              (st2, indent ++ "echo print_r(" ++ withoutSemicolon ++ ", true) . \"\\n\";")
        else (st2, line)
      else (st2, line)

def autoLogPHPGo (st : ALState) : List String → List String
  | [] => []
  | l :: ls => (autoLogStepPHP st l).2 :: autoLogPHPGo (autoLogStepPHP st l).1 ls

/-- Models autoLogExpressionsPHP in src/scripts/renderer.js. -/
def autoLogExpressionsPHP (code : String) : String :=
  if code == "" || jsTrim code == "" then code
  else joinNewline (autoLogPHPGo autoLogInit (jsSplitNewline code))

/-! ### The renderer: magic-comment extraction (processMagicComments) -/

/-- A probe annotation: 1-based source line and the annotated expression. -/
structure MagicComment where
  line : Nat
  expression : String
deriving DecidableEq

/-- The backtracking tail of the magic-comment regex after the literal
dollar: optional whitespace then a nonempty greedy capture; when everything
after the dollar is whitespace the star gives one character back so the
capture is the final whitespace character. -/
def magicTailCapture (rest : List Char) : Option (List Char) :=
  match rest.dropWhile jsWhitespace with
  | [] =>
    match rest with
    | [] => none
    | c :: cs => some [(c :: cs).getLast (by simp)]
  | k :: ks => some (k :: ks)

/-- Attempts the magic-comment pattern right after a double slash:
optional whitespace, a dollar, then the capture. -/
def magicCaptureAt (rest : List Char) : Option (List Char) :=
  match rest.dropWhile jsWhitespace with
  | '$' :: rest2 => magicTailCapture rest2
  | _ => none

/-- Leftmost match of the magic-comment pattern: scan for a double slash
whose tail matches; on failure resume the scan one character later. -/
def magicScan : List Char → Option (List Char)
  | [] => none
  | '/' :: '/' :: rest =>
    match magicCaptureAt rest with
    | some cap => some cap
    | none => magicScan ('/' :: rest)
  | _ :: cs => magicScan cs
termination_by l => l.length

/-- The capture group of `line.match(/\/\/\s*\$\s*(.+)/)`. -/
def magicCommentCapture (line : String) : Option String :=
  (magicScan line.data).map (·.asString)

/-- Indexed traversal modelling `lines.forEach((line, index) => ...)`. -/
def indexedFrom (k : Nat) : List α → List (Nat × α)
  | [] => []
  | a :: as => (k, a) :: indexedFrom (k + 1) as

/-- The result record of processMagicComments. -/
structure ProcessedMagic where
  code : String
  magicComments : List MagicComment

/-- Models processMagicComments in src/scripts/renderer.js: both forEach
branches push the line unchanged; a matching line additionally records the
1-based line number with the trimmed capture. -/
def processMagicComments (code : String) : ProcessedMagic :=
  let lines := jsSplitNewline code
  let processedLines := lines.map (fun l =>
    match magicCommentCapture l with
    | some _ => l
    | none => l)
  let mcs := (indexedFrom 0 lines).filterMap (fun p =>
    (magicCommentCapture p.2).map (fun cap =>
      { line := p.1 + 1, expression := jsTrim cap }))
  { code := joinNewline processedLines, magicComments := mcs }

/-! ### The generated harness: console shim and probe evaluation -/

/-- The four captured console methods. -/
inductive ConsoleKind where
  | log : ConsoleKind
  | warn : ConsoleKind
  | error : ConsoleKind
  | info : ConsoleKind
deriving DecidableEq

/-- One captured output entry, `\x7b type, args \x7d` in the payload. -/
structure OutputEntry where
  type : ConsoleKind
  args : String

def JSValue.isUndefined : JSValue → Bool
  | .undef => true
  | _ => false

/-- Escapes one character for a JSON string literal. -/
def jsonEscapeChar (c : Char) : List Char :=
  if c == '"' then ['\\', '"']
  else if c == '\\' then ['\\', '\\']
  else if c == '\n' then ['\\', 'n']
  else if c == '\r' then ['\\', 'r']
  else if c == '\t' then ['\\', 't']
  else if c == '\x08' then ['\\', 'b']
  else if c == '\x0c' then ['\\', 'f']
  else if c.toNat < 32 then
    ['\\', 'u', '0', '0', Nat.digitChar (c.toNat / 16), Nat.digitChar (c.toNat % 16)]
  else [c]

def jsonQuoteString (s : String) : String :=
  "\"" ++ ((s.data.map jsonEscapeChar).flatten).asString ++ "\""

mutual

/-- Models `JSON.stringify(v, null, 2)` at the given indentation context:
`none` models the undefined result on undefined and function values. -/
def jsonStringify2 : JSValue → String → Option String
  | .undef, _ => none
  | .func _, _ => none
  | .null, _ => some "null"
  | .bool b, _ => some (cond b "true" "false")
  | .num lex, _ => some lex
  | .str s, _ => some (jsonQuoteString s)
  | .arr [], _ => some "[]"
  | .arr (e :: es), ind =>
    some ("[\n" ++
      String.intercalate ",\n"
        ((jsonStringifyElems (e :: es) (ind ++ "  ")).map (fun x => ind ++ "  " ++ x)) ++
      "\n" ++ ind ++ "]")
  | .obj [], _ => some "\x7b\x7d"
  | .obj (f :: fs), ind =>
    match jsonStringifyFields (f :: fs) (ind ++ "  ") with
    | [] => some "\x7b\x7d"
    | x :: xs =>
      some ("\x7b\n" ++
        String.intercalate ",\n" ((x :: xs).map (fun y => ind ++ "  " ++ y)) ++
        "\n" ++ ind ++ "\x7d")

/-- Array elements stringify undefined and functions as null. -/
def jsonStringifyElems : List JSValue → String → List String
  | [], _ => []
  | e :: es, ind => ((jsonStringify2 e ind).getD "null") :: jsonStringifyElems es ind

/-- Object members whose value stringifies to undefined are omitted. -/
def jsonStringifyFields : List (String × JSValue) → String → List String
  | [], _ => []
  | (k, v) :: fs, ind =>
    match jsonStringify2 v ind with
    | some s => (jsonQuoteString k ++ ": " ++ s) :: jsonStringifyFields fs ind
    | none => jsonStringifyFields fs ind

end

/-- Models safeStringify of the generated JavaScript harness.  The source
wraps the body in try/catch falling back to String(value); the only throwing
case (circular objects) is unrepresentable in the inductive model. -/
def safeStringify (v : JSValue) : String :=
  match v with
  | .null => "null"
  | .undef => "undefined"
  | .func src => src
  | .obj _ => (jsonStringify2 v "").getD ""
  | .arr _ => (jsonStringify2 v "").getD ""
  | .bool b => cond b "true" "false"
  | .num lex => lex
  | .str s => s

/-- Models one invocation of a captured console method in the generated
JavaScript harness: filter out undefined arguments; record nothing when none
remain; otherwise append one entry whose text joins the stringified survivors
with spaces. -/
def consoleCapture (kind : ConsoleKind) (buf : List OutputEntry) (args : List JSValue) :
    List OutputEntry :=
  let filteredArgs := args.filter (fun a => !a.isUndefined)
  if filteredArgs.length = 0 then buf
  else buf ++ [{ type := kind, args := String.intercalate " " (filteredArgs.map safeStringify) }]

/-- One probe outcome inside the payload. -/
structure ProbeResult where
  line : Nat
  expression : String
  value : Option JSValue
  error : Option String

/-- Models the per-comment try/catch blocks that executeJavaScript generates
into the harness footer (magicCommentsEval): one entry per comment, carrying
the evaluated value or the message of the error thrown computing it.
`evalExpr` abstracts child-side evaluation of the expression in the scope at
the bottom of the user code; the recorded expression text round-trips through
the escaping to the original annotation text. -/
def jsMagicEntries (evalExpr : String → Except String JSValue) (mcs : List MagicComment) :
    List ProbeResult :=
  mcs.map fun mc =>
    match evalExpr mc.expression with
    | .ok v => { line := mc.line, expression := mc.expression, value := some v, error := none }
    | .error msg => { line := mc.line, expression := mc.expression, value := none, error := some msg }

/-- The simple-variable test of the PHP probe generator in executePHP: the
trimmed expression is a bare identifier and does not start with a dollar. -/
def phpIsSimpleMagicVariable (expr : String) : Bool :=
  phpIdentRE.matchList (jsTrim expr).data && !jsStartsWith (jsTrim expr) "$"

/-- Models the per-comment blocks that executePHP generates: a simple
variable produces one try/catch entry evaluating the dollar-prefixed
variable; any other expression generates only a comment line (skipped) and
contributes no entry. -/
def phpMagicEntries (evalVar : String → Except String JSValue) (mcs : List MagicComment) :
    List ProbeResult :=
  mcs.filterMap fun mc =>
    if phpIsSimpleMagicVariable mc.expression then
      some (match evalVar ("$" ++ jsTrim mc.expression) with
        | .ok v => { line := mc.line, expression := mc.expression, value := some v, error := none }
        | .error msg =>
          { line := mc.line, expression := mc.expression, value := none, error := some msg })
    else none

/-! ### The main process: close handlers, spawn-error handlers, cancellation
(executeJavaScript, executePHP and the stop-execution handler in the main
process source) -/

/-- What a close or spawn-error handler does: the value resolved to the
caller and whether the temporary script file was unlinked. -/
structure CloseOutcome where
  resolvedValue : JSValue
  deletedTempFile : Bool

/-- The error object literal `\x7b message \x7d` used by the handlers. -/
def mkErrObj (msg : String) : JSValue :=
  .obj [("message", .str msg)]

/-- The try block of the JavaScript close handler: locate the sentinel pair,
parse the delimited substring, fall back to stderr and then to the first
brace-delimited substring; a JSON.parse failure is an exception reaching the
catch. -/
def jsCloseBody (stdout stderr : String) : Except String JSValue :=
  let resultStart := jsIndexOf stdout "__FASTTINKER_JS_RESULT_START__\n"
  let resultEnd := jsIndexOfFrom stdout "\n__FASTTINKER_JS_RESULT_END__" resultStart
  if resultStart != -1 && resultEnd != -1 then
    let jsonStr :=
      jsSubstring stdout (resultStart + ("__FASTTINKER_JS_RESULT_START__\n" : String).length) resultEnd
    match jsonParse jsonStr with
    | some v => .ok v
    | none => .error "Unexpected token in JSON"
  else if stderr != "" && !jsIncludes stdout "__FASTTINKER_JS_RESULT_START__" then
    .ok (.obj [("output", .arr []), ("error", mkErrObj stderr), ("value", .undef)])
  else
    match jsonObjMatch stdout with
    | some m =>
      match jsonParse m with
      | some v => .ok v
      | none => .error "Unexpected token in JSON"
    | none => .ok (.obj [("output", .arr []), ("error", .null), ("value", .undef)])

/-- The catch clause shared by both close handlers: a synthetic result whose
message is the exception message, or a fallback built from stderr or a
stdout prefix when that message is empty. -/
def closeCatchResult (excMsg stdout stderr : String) : JSValue :=
  .obj [("output", .arr []),
        ("error", mkErrObj (if excMsg != "" then excMsg
          else "Execution failed: " ++ (if stderr != "" then stderr else jsSubstring stdout 0 200))),
        ("value", .undef)]

/-- Models the close handler of executeJavaScript: always unlinks the
temporary script, then resolves exactly one value. -/
def executeJavaScriptOnClose (stdout stderr : String) : CloseOutcome :=
  { resolvedValue :=
      match jsCloseBody stdout stderr with
      | .ok v => v
      | .error m => closeCatchResult m stdout stderr,
    deletedTempFile := true }

/-- The try block of the PHP close handler, with its looser sentinel search
(with or without newline), optional newline skip, trimmed payload, inner
try/catch around the brace-substring parse, and the synthesized-stdout,
stderr and no-output fallbacks. -/
def phpCloseBody (stdout stderr : String) : Except String JSValue :=
  let resultStart1 := jsIndexOf stdout "__FASTTINKER_PHP_RESULT_START__\n"
  let resultStart2 := jsIndexOf stdout "__FASTTINKER_PHP_RESULT_START__"
  let resultStart := if resultStart1 != -1 then resultStart1 else resultStart2
  let resultEnd :=
    if resultStart != -1 then
      let searchStart := resultStart + ("__FASTTINKER_PHP_RESULT_START__" : String).length
      let resultEnd1 := jsIndexOfFrom stdout "\n__FASTTINKER_PHP_RESULT_END__" searchStart
      let resultEnd2 := jsIndexOfFrom stdout "__FASTTINKER_PHP_RESULT_END__" searchStart
      if resultEnd1 != -1 then resultEnd1 else resultEnd2
    else -1
  if resultStart != -1 && resultEnd != -1 then
    let jsonStart0 := resultStart + ("__FASTTINKER_PHP_RESULT_START__" : String).length
    let jsonStart := if jsCharAt stdout jsonStart0.toNat = some '\n' then jsonStart0 + 1 else jsonStart0
    let jsonStr := jsTrim (jsSubstring stdout jsonStart resultEnd)
    match jsonParse jsonStr with
    | some v => .ok v
    | none => .error "Unexpected token in JSON"
  else if stderr != "" && !jsIncludes stdout "__FASTTINKER_PHP_RESULT_START__" then
    .ok (.obj [("output", .arr []), ("error", mkErrObj stderr), ("value", .undef)])
  else
    match jsonObjMatch stdout with
    | some m =>
      match jsonParse m with
      | some v => .ok v
      | none =>
        .ok (.obj [("output", .arr []),
          ("error", mkErrObj ("Failed to parse execution result. Output: " ++ jsSubstring stdout 0 200)),
          ("value", .undef)])
    | none =>
      if jsTrim stdout != "" then
        .ok (.obj [("output", .arr [.obj [("type", .str "log"), ("args", .str (jsTrim stdout))]]),
          ("error", .null), ("value", .undef), ("magicComments", .arr [])])
      else if jsTrim stderr != "" then
        .ok (.obj [("output", .arr []), ("error", mkErrObj (jsTrim stderr)), ("value", .undef)])
      else
        .ok (.obj [("output", .arr []), ("error", mkErrObj "Execution returned no output."),
          ("value", .undef)])

/-- The fatal-parse heuristic of the PHP close handler. -/
def phpHasParseErrorMarker (stderr : String) : Bool :=
  stderr != "" && jsIncludes stderr "Parse error"

/-- Models the close handler of executePHP: unlinks the temporary script
unless the fatal-parse marker appears in stderr, then resolves one value. -/
def executePHPOnClose (stdout stderr : String) : CloseOutcome :=
  { resolvedValue :=
      match phpCloseBody stdout stderr with
      | .ok v => v
      | .error m => closeCatchResult m stdout stderr,
    deletedTempFile := !phpHasParseErrorMarker stderr }

/-- The fields of a spawn error event the handlers read. -/
structure SpawnErrorInfo where
  message : String
  code : String
deriving DecidableEq

/-- Models the error handler of executeJavaScript: registry entry removed,
temporary file unlinked, and a synthetic result whose message names the
attempted interpreter path only for ENOENT. -/
def executeJavaScriptOnError (err : SpawnErrorInfo) (nodeExecutable : String) : CloseOutcome :=
  let errorMessage :=
    if err.code = "ENOENT" then
      "Node.js not found. Please install Node.js and ensure it is accessible.\n\nTried: " ++
        nodeExecutable
    else err.message
  { resolvedValue :=
      .obj [("output", .arr []),
            ("error", .obj [("message", .str errorMessage), ("code", .str err.code)]),
            ("value", .undef)],
    deletedTempFile := true }

/-- Models the error handler of executePHP. -/
def executePHPOnError (err : SpawnErrorInfo) (phpExecutable : String) : CloseOutcome :=
  let errorMessage :=
    if err.code = "ENOENT" then
      "PHP not found. Please install PHP and ensure it is accessible.\n\nTried: " ++ phpExecutable
    else err.message
  { resolvedValue :=
      .obj [("output", .arr []),
            ("error", .obj [("message", .str errorMessage), ("code", .str err.code)]),
            ("value", .undef)],
    deletedTempFile := true }

/-! ### Execution identifiers and temporary script names -/

/-- Models `Number.prototype.toString` on the whole-number clock value
`Date.now()`: the usual base-10 numeral. -/
def jsNumberToString (n : Nat) : String :=
  if n = 0 then "0" else ((Nat.digits 10 n).reverse.map Nat.digitChar).asString

/-- Models `const execId = Date.now().toString()` in both handlers. -/
def mkExecId (nowMs : Nat) : String := jsNumberToString nowMs

/-- The temporary script filename of executeJavaScript. -/
def jsTempScriptName (execId : String) : String := "fasttinker-js-" ++ execId ++ ".js"

/-- The temporary script filename of executePHP. -/
def phpTempScriptName (execId : String) : String := "fasttinker-php-" ++ execId ++ ".php"

/-- One invocation of an execute handler, identified by the millisecond clock
reading at its start and a sequence number distinguishing distinct
invocations that start within the same millisecond. -/
structure ExecutionStart where
  startMs : Nat
  seq : Nat
deriving DecidableEq

/-! ### The cancellation registry and result delivery -/

/-- One spawned child process as the engine observes it: its registry key,
whether kill was called on it, and the value (if any) its execution promise
has resolved. -/
structure TrackedProcess where
  execId : String
  killSignalled : Bool
  resolvedValue : Option JSValue

/-- The engine state: the operating-system processes and the keys of the
executionProcesses map. -/
structure EngineState where
  procs : List TrackedProcess
  registry : List String

/-- Resolving a promise twice is a no-op: the first value wins. -/
def promiseResolve (cur : Option JSValue) (v : JSValue) : Option JSValue :=
  match cur with
  | some w => some w
  | none => some v

/-- Models the stop-execution handler: kill every process in the map (kill
failures are swallowed by its try/catch), then clear the map. -/
def stopExecutionHandler (s : EngineState) : EngineState :=
  { procs := s.procs.map (fun p =>
      if s.registry.contains p.execId then { p with killSignalled := true } else p),
    registry := [] }

/-- Models the close event of a JavaScript execution child: the handler
deletes its registry key and resolves the value parsed from the accumulated
streams, whether or not the process was killed. -/
def closeEventStep (s : EngineState) (execId stdout stderr : String) : EngineState :=
  { procs := s.procs.map (fun p =>
      if p.execId == execId then
        { p with resolvedValue :=
            promiseResolve p.resolvedValue (executeJavaScriptOnClose stdout stderr).resolvedValue }
      else p),
    registry := s.registry.filter (fun k => k != execId) }

/-- Stated from the claim wording, for comparison with what the handlers
resolve: an ExecutionResult is an object with an output list, an error that
is an object or null, and a value field. -/
def specWellFormedExecutionResult (v : JSValue) : Bool :=
  match v with
  | .obj fs =>
    (match getField fs "output" with
     | some (.arr _) => true
     | _ => false) &&
    (match getField fs "error" with
     | some .null => true
     | some (.obj _) => true
     | _ => false) &&
    (getField fs "value").isSome
  | _ => false

/-- A JavaScript line already invoking a captured output call, in the same
normal form the transform guard uses (trimmed, trailing semicolon removed). -/
def jsInvokesOutputCall (line : String) : Bool :=
  jsConsoleCallGuard (removeTrailingSemicolon (jsTrim line))

/-- A PHP line already invoking one of the output calls, in the same normal
form the transform guard uses. -/
def phpInvokesOutputCall (line : String) : Bool :=
  phpOutputCallGuard (removeTrailingSemicolon (jsTrim line))

/-!
## Theorems

General helper lemmas first, then one theorem (with counterexample and
witness where applicable) per specification claim.
-/

theorem splitLinesList_ne_nil (cs : List Char) : splitLinesList cs ≠ [] := by
  cases cs with
  | nil => simp [splitLinesList]
  | cons c cs =>
    simp only [splitLinesList]
    split
    · simp
    · split
      · simp
      · simp

theorem joinLinesList_splitLinesList (cs : List Char) :
    joinLinesList (splitLinesList cs) = cs := by
  induction cs with
  | nil => rfl
  | cons c cs ih =>
    simp only [splitLinesList]
    split
    · rename_i hc
      cases h : splitLinesList cs with
      | nil => exact absurd h (splitLinesList_ne_nil cs)
      | cons l ls =>
        rw [h] at ih
        subst hc
        cases ls with
        | nil => simpa [joinLinesList] using ih
        | cons l2 ls2 => simpa [joinLinesList] using ih
    · cases h : splitLinesList cs with
      | nil => exact absurd h (splitLinesList_ne_nil cs)
      | cons l ls =>
        rw [h] at ih
        cases ls with
        | nil => simpa [joinLinesList] using ih
        | cons l2 ls2 => simpa [joinLinesList] using ih

theorem joinNewline_jsSplitNewline (s : String) : joinNewline (jsSplitNewline s) = s := by
  unfold joinNewline jsSplitNewline
  rw [List.map_map]
  have hmap : (splitLinesList s.data).map ((fun st : String => st.data) ∘ List.asString) =
      (splitLinesList s.data).map id := by
    apply List.map_congr_left
    intro l _
    exact List.toList_asString l
  rw [hmap, List.map_id, joinLinesList_splitLinesList]
  exact String.asString_toList s

example : jsonParse "\x7b\x7d" = some (JSValue.obj []) := by rfl
example : jsonParse "5" = some (JSValue.num "5") := by rfl
example : jsonParse "hello" = none := by rfl
example : jsonParse "\x7b\"value\":7\x7d" = some (JSValue.obj [("value", JSValue.num "7")]) := by rfl
example : jsonParse "" = none := by rfl
example : jsonObjMatch "hello" = none := by rfl
example : jsonObjMatch "a\x7b\x7db" = some "\x7b\x7d" := by rfl
example : autoLogExpressions "x" = "console.log(x);" := by rfl
example : autoLogExpressions "console.log(x);" = "console.log(x);" := by rfl
example : autoLogExpressionsPHP "$x" = "echo var_export($x, true) . \"\\n\";" := by rfl
example : autoLogExpressionsPHP "echo $x;" = "echo $x;" := by rfl

theorem string_data_append (a b : String) : (a ++ b).data = a.data ++ b.data := by
  cases a
  cases b
  rfl

theorem wrap_string_inj (p s a b : String) (h : p ++ a ++ s = p ++ b ++ s) : a = b := by
  have hd := congrArg String.data h
  rw [string_data_append, string_data_append, string_data_append, string_data_append] at hd
  exact String.toList_inj.mp (List.append_cancel_left (List.append_cancel_right hd))

theorem digitChar_injOn :
    ∀ a : Nat, a < 10 → ∀ b : Nat, b < 10 → Nat.digitChar a = Nat.digitChar b → a = b := by
  decide

theorem mapDigitChar_inj :
    ∀ l1 l2 : List Nat, (∀ x ∈ l1, x < 10) → (∀ x ∈ l2, x < 10) →
      l1.map Nat.digitChar = l2.map Nat.digitChar → l1 = l2 := by
  intro l1
  induction l1 with
  | nil =>
    intro l2 _ _ h
    cases l2 with
    | nil => rfl
    | cons b bs => simp at h
  | cons a as ih =>
    intro l2 h1 h2 h
    cases l2 with
    | nil => simp at h
    | cons b bs =>
      simp only [List.map_cons, List.cons.injEq] at h
      have hab := digitChar_injOn a (h1 a (by simp)) b (h2 b (by simp)) h.1
      have hrest := ih bs (fun x hx => h1 x (by simp [hx])) (fun x hx => h2 x (by simp [hx])) h.2
      rw [hab, hrest]

theorem jsNumberToString_ne_zero_str {n : Nat} (hn : n ≠ 0) : jsNumberToString n ≠ "0" := by
  unfold jsNumberToString
  rw [if_neg hn]
  intro h
  have h2 : (Nat.digits 10 n).reverse.map Nat.digitChar = ['0'] :=
    List.asString_inj.mp h
  cases hrev : (Nat.digits 10 n).reverse with
  | nil => rw [hrev] at h2; simp at h2
  | cons d ds =>
    rw [hrev] at h2
    simp only [List.map_cons, List.cons.injEq, List.map_eq_nil_iff] at h2
    obtain ⟨hd, hds⟩ := h2
    have hd10 : d < 10 :=
      Nat.digits_lt_base (by norm_num) (List.mem_reverse.mp (by rw [hrev]; simp))
    have hd0 : d = 0 := digitChar_injOn d hd10 0 (by norm_num) (by rw [hd]; rfl)
    have hdig : Nat.digits 10 n = [0] := by
      have := congrArg List.reverse hrev
      simpa [hds, hd0] using this
    have h0 := Nat.ofDigits_digits 10 n
    rw [hdig] at h0
    simp [Nat.ofDigits] at h0
    exact hn h0.symm

theorem jsNumberToString_inj {m n : Nat} (h : jsNumberToString m = jsNumberToString n) :
    m = n := by
  by_cases hm : m = 0 <;> by_cases hn : n = 0
  · rw [hm, hn]
  · subst hm
    exact absurd (show jsNumberToString n = "0" by rw [← h]; rfl)
      (jsNumberToString_ne_zero_str hn)
  · subst hn
    exact absurd (show jsNumberToString m = "0" by rw [h]; rfl)
      (jsNumberToString_ne_zero_str hm)
  · unfold jsNumberToString at h
    rw [if_neg hm, if_neg hn] at h
    have hl := List.asString_inj.mp h
    have hrev := mapDigitChar_inj _ _
      (fun x hx => Nat.digits_lt_base (by norm_num) (List.mem_reverse.mp hx))
      (fun x hx => Nat.digits_lt_base (by norm_num) (List.mem_reverse.mp hx)) hl
    have hdig : Nat.digits 10 m = Nat.digits 10 n := by
      have := congrArg List.reverse hrev
      simpa using this
    exact Nat.digits_inj_iff.mp hdig

/-- C7 counterexample: two distinct executions started in the same
millisecond (Date.now has millisecond resolution) receive the same execution
identifier and the same temporary script filename, so the claimed uniqueness
fails on the code. -/
theorem c7_counterexample :
    ((⟨1700000000000, 0⟩ : ExecutionStart) ≠ ⟨1700000000000, 1⟩) ∧
    mkExecId (ExecutionStart.mk 1700000000000 0).startMs =
      mkExecId (ExecutionStart.mk 1700000000000 1).startMs ∧
    jsTempScriptName (mkExecId (ExecutionStart.mk 1700000000000 0).startMs) =
      jsTempScriptName (mkExecId (ExecutionStart.mk 1700000000000 1).startMs) := by
  exact ⟨by decide, rfl, rfl⟩

/-- C7 amended: execution identifiers are distinct whenever the startup
clock readings (milliseconds) differ, and then the temporary script
filenames embedding them differ as well; two executions in the same
millisecond share both. -/
theorem c7_claim :
    ∀ t1 t2 : Nat, t1 ≠ t2 →
      mkExecId t1 ≠ mkExecId t2 ∧
      jsTempScriptName (mkExecId t1) ≠ jsTempScriptName (mkExecId t2) ∧
      phpTempScriptName (mkExecId t1) ≠ phpTempScriptName (mkExecId t2) := by
  intro t1 t2 hne
  have hid : mkExecId t1 ≠ mkExecId t2 := fun h => hne (jsNumberToString_inj h)
  exact ⟨hid,
    fun h => hid (wrap_string_inj "fasttinker-js-" ".js" _ _ h),
    fun h => hid (wrap_string_inj "fasttinker-php-" ".php" _ _ h)⟩

/-- C7 witness: the amended statement applied at two distinct timestamps. -/
theorem c7_witness :
    mkExecId 1 ≠ mkExecId 2 ∧
    jsTempScriptName (mkExecId 1) ≠ jsTempScriptName (mkExecId 2) ∧
    phpTempScriptName (mkExecId 1) ≠ phpTempScriptName (mkExecId 2) :=
  c7_claim 1 2 (by decide)

/-- C5 counterexample: the known fatal-parse marker appears in stderr, yet
the JavaScript close handler still deletes the temporary script file; the
claimed marker-conditioned skip exists only in the PHP handler. -/
theorem c5_counterexample :
    phpHasParseErrorMarker "PHP Parse error: syntax error" = true ∧
    (executeJavaScriptOnClose "" "PHP Parse error: syntax error").deletedTempFile = true := by
  exact ⟨rfl, rfl⟩

/-- C5 amended: on every close event the JavaScript handler deletes the
temporary script unconditionally, while the PHP handler deletes it exactly
unless stderr is nonempty and contains the Parse error marker. -/
theorem c5_claim :
    ∀ stdout stderr : String,
      (executeJavaScriptOnClose stdout stderr).deletedTempFile = true ∧
      (executePHPOnClose stdout stderr).deletedTempFile =
        !(stderr != "" && jsIncludes stderr "Parse error") := by
  intro stdout stderr
  exact ⟨rfl, rfl⟩

/-- C6 counterexample: a spawn error with code EACCES (interpreter present
but not executable) resolves the raw error message, which does not name the
interpreter path that was tried. -/
theorem c6_counterexample :
    (executeJavaScriptOnError ⟨"spawn EACCES", "EACCES"⟩ "/usr/bin/node").resolvedValue =
      JSValue.obj [("output", .arr []),
        ("error", .obj [("message", .str "spawn EACCES"), ("code", .str "EACCES")]),
        ("value", .undef)] ∧
    jsIncludes "spawn EACCES" "/usr/bin/node" = false := by
  exact ⟨rfl, rfl⟩

/-- C6 amended: every spawn error resolves a synthetic result with empty
output and undefined value and deletes the temporary script; the message
names the attempted interpreter path exactly when the error code is ENOENT,
and is the raw error message otherwise. -/
theorem c6_claim :
    ∀ (err : SpawnErrorInfo) (nodePath phpPath : String),
      (executeJavaScriptOnError err nodePath).deletedTempFile = true ∧
      (executePHPOnError err phpPath).deletedTempFile = true ∧
      (executeJavaScriptOnError err nodePath).resolvedValue =
        JSValue.obj [("output", .arr []),
          ("error", .obj [("message", .str (if err.code = "ENOENT" then
              "Node.js not found. Please install Node.js and ensure it is accessible.\n\nTried: " ++
                nodePath
            else err.message)), ("code", .str err.code)]),
          ("value", .undef)] ∧
      (executePHPOnError err phpPath).resolvedValue =
        JSValue.obj [("output", .arr []),
          ("error", .obj [("message", .str (if err.code = "ENOENT" then
              "PHP not found. Please install PHP and ensure it is accessible.\n\nTried: " ++ phpPath
            else err.message)), ("code", .str err.code)]),
          ("value", .undef)] := by
  intro err nodePath phpPath
  exact ⟨rfl, rfl, rfl, rfl⟩

/-- C10: a captured console invocation whose arguments are all undefined
appends nothing, and undefined arguments never influence the recorded
entries: the capture of any argument list equals the capture of its
non-undefined arguments. -/
theorem c10_claim :
    ∀ (kind : ConsoleKind) (buf : List OutputEntry) (args : List JSValue),
      consoleCapture kind buf args =
        consoleCapture kind buf (args.filter (fun a => !a.isUndefined)) ∧
      ((∀ a ∈ args, a = JSValue.undef) → consoleCapture kind buf args = buf) := by
  intro kind buf args
  constructor
  · unfold consoleCapture
    rw [List.filter_filter]
    simp
  · intro h
    have hnil : args.filter (fun a => !a.isUndefined) = [] := by
      rw [List.filter_eq_nil_iff]
      intro a ha
      rw [h a ha]
      simp [JSValue.isUndefined]
    unfold consoleCapture
    rw [hnil]
    rfl

/-- C10 witness: console.log(undefined) contributes nothing. -/
theorem c10_witness :
    consoleCapture ConsoleKind.log [] [JSValue.undef] =
      consoleCapture ConsoleKind.log [] ([JSValue.undef].filter (fun a => !a.isUndefined)) ∧
    consoleCapture ConsoleKind.log [] [JSValue.undef] = [] :=
  ⟨(c10_claim ConsoleKind.log [] [JSValue.undef]).1,
   (c10_claim ConsoleKind.log [] [JSValue.undef]).2 (by
     intro a ha
     simpa using ha)⟩

/-- C2 counterexample: an execution is cancelled (stop-execution kills its
registered process and clears the registry), yet the payload that its close
event subsequently delivers is parsed and resolved to the caller, not
discarded; there is no cancellation outcome. -/
theorem c2_counterexample :
    (closeEventStep (stopExecutionHandler ⟨[⟨"100", false, none⟩], ["100"]⟩)
        "100" "\x7b\"value\":7\x7d" "").procs =
      [⟨"100", true, some (JSValue.obj [("value", JSValue.num "7")])⟩] ∧
    (stopExecutionHandler (⟨[⟨"100", false, none⟩], ["100"]⟩ : EngineState)).registry = [] := by
  exact ⟨rfl, rfl⟩

/-- C2 amended: cancelling signals every registered process and clears the
registry, but a close event arriving afterwards still resolves the parsed
result of the accumulated streams back to the caller; delivery is not
suppressed. -/
theorem c2_claim :
    ∀ (pid stdout stderr : String),
      (stopExecutionHandler ⟨[⟨pid, false, none⟩], [pid]⟩).registry = [] ∧
      (stopExecutionHandler ⟨[⟨pid, false, none⟩], [pid]⟩).procs = [⟨pid, true, none⟩] ∧
      (closeEventStep (stopExecutionHandler ⟨[⟨pid, false, none⟩], [pid]⟩) pid stdout stderr).procs =
        [⟨pid, true, some (executeJavaScriptOnClose stdout stderr).resolvedValue⟩] := by
  intro pid stdout stderr
  refine ⟨rfl, ?_, ?_⟩
  · simp [stopExecutionHandler]
  · simp [stopExecutionHandler, closeEventStep, promiseResolve]

theorem jsClose_wellformed_or_parsed (stdout stderr : String) :
    specWellFormedExecutionResult (executeJavaScriptOnClose stdout stderr).resolvedValue = true ∨
    ∃ s, jsonParse s = some (executeJavaScriptOnClose stdout stderr).resolvedValue := by
  unfold executeJavaScriptOnClose
  cases hbody : jsCloseBody stdout stderr with
  | error m =>
    left
    simp only [hbody]
    rfl
  | ok v =>
    simp only [hbody]
    simp only [jsCloseBody] at hbody
    repeat' split at hbody
    all_goals injection hbody
    all_goals
      rename_i hv
      subst hv
      first
      | (left; rfl)
      | (right; exact ⟨_, by assumption⟩)

theorem phpClose_wellformed_or_parsed (stdout stderr : String) :
    specWellFormedExecutionResult (executePHPOnClose stdout stderr).resolvedValue = true ∨
    ∃ s, jsonParse s = some (executePHPOnClose stdout stderr).resolvedValue := by
  unfold executePHPOnClose
  cases hbody : phpCloseBody stdout stderr with
  | error m =>
    left
    simp only [hbody]
    rfl
  | ok v =>
    simp only [hbody]
    simp only [phpCloseBody] at hbody
    repeat' split at hbody
    all_goals injection hbody
    all_goals
      rename_i hv
      subst hv
      first
      | (left; rfl)
      | (right; exact ⟨_, by assumption⟩)

/-- C1 counterexample: a bare JSON object with no fields is parsed and
resolved as-is, so the caller receives a value that is not a well-formed
ExecutionResult (no output list, no error, no value field); the handler does
not always resolve a well-formed result. -/
theorem c1_counterexample :
    (executeJavaScriptOnClose "\x7b\x7d" "").resolvedValue = JSValue.obj [] ∧
    specWellFormedExecutionResult (JSValue.obj []) = false := by
  exact ⟨rfl, rfl⟩

/-- C1 amended: for every accumulated stdout/stderr pair, each close handler
resolves exactly one value without raising; that value is a well-formed
ExecutionResult on every path except when a sentinel-delimited or
brace-matched payload parses as JSON, in which case the parsed JSON is
resolved as-is (and need not have the ExecutionResult shape). -/
theorem c1_claim :
    ∀ stdout stderr : String,
      (specWellFormedExecutionResult (executeJavaScriptOnClose stdout stderr).resolvedValue = true ∨
        ∃ s, jsonParse s = some (executeJavaScriptOnClose stdout stderr).resolvedValue) ∧
      (specWellFormedExecutionResult (executePHPOnClose stdout stderr).resolvedValue = true ∨
        ∃ s, jsonParse s = some (executePHPOnClose stdout stderr).resolvedValue) :=
  fun stdout stderr =>
    ⟨jsClose_wellformed_or_parsed stdout stderr, phpClose_wellformed_or_parsed stdout stderr⟩

/-- C4 counterexample: stdout has non-whitespace content, no sentinel and no
brace-shaped substring, yet the JavaScript close handler resolves an empty
output list (with null error) instead of the claimed single synthesized log
entry; only the PHP handler synthesizes one. -/
theorem c4_counterexample :
    jsTrim "hello" ≠ "" ∧ jsonObjMatch "hello" = none ∧
    jsIncludes "hello" "__FASTTINKER_JS_RESULT_START__" = false ∧
    (executeJavaScriptOnClose "hello" "").resolvedValue =
      JSValue.obj [("output", .arr []), ("error", .null), ("value", .undef)] := by
  exact ⟨by decide, rfl, rfl, rfl⟩

/-- C4 amended: when nothing parseable is present (no sentinel, no
brace-shaped substring), stderr is empty and stdout has non-whitespace
content, the PHP close handler resolves exactly one synthesized log entry
holding the trimmed stdout text with a null error, while the JavaScript
close handler resolves an empty output list with a null error. -/
theorem c4_claim :
    ∀ stdout : String,
      jsIndexOf stdout "__FASTTINKER_PHP_RESULT_START__\n" = -1 →
      jsIndexOf stdout "__FASTTINKER_PHP_RESULT_START__" = -1 →
      jsIndexOf stdout "__FASTTINKER_JS_RESULT_START__\n" = -1 →
      jsonObjMatch stdout = none →
      jsTrim stdout ≠ "" →
      (executePHPOnClose stdout "").resolvedValue =
        JSValue.obj [("output", .arr [.obj [("type", .str "log"), ("args", .str (jsTrim stdout))]]),
          ("error", .null), ("value", .undef), ("magicComments", .arr [])] ∧
      (executeJavaScriptOnClose stdout "").resolvedValue =
        JSValue.obj [("output", .arr []), ("error", .null), ("value", .undef)] := by
  intro stdout h1 h2 h3 h4 h5
  constructor
  · simp [executePHPOnClose, phpCloseBody, h1, h2, h4, h5]
  · simp [executeJavaScriptOnClose, jsCloseBody, h3, h4]

/-- C4 witness: the amended statement at a concrete unparseable stdout. -/
theorem c4_witness :
    (executePHPOnClose "hello" "").resolvedValue =
      JSValue.obj [("output", .arr [.obj [("type", .str "log"), ("args", .str (jsTrim "hello"))]]),
        ("error", .null), ("value", .undef), ("magicComments", .arr [])] ∧
    (executeJavaScriptOnClose "hello" "").resolvedValue =
      JSValue.obj [("output", .arr []), ("error", .null), ("value", .undef)] :=
  c4_claim "hello" rfl rfl rfl rfl (by decide)

theorem jsMagicEntries_line_map (ev : String → Except String JSValue) (mcs : List MagicComment) :
    (jsMagicEntries ev mcs).map ProbeResult.line = mcs.map MagicComment.line := by
  unfold jsMagicEntries
  rw [List.map_map]
  apply List.map_congr_left
  intro mc _
  simp only [Function.comp_apply]
  cases hev : ev mc.expression <;> simp [hev]

theorem phpMagicEntries_line_map (ev : String → Except String JSValue) (mcs : List MagicComment) :
    (phpMagicEntries ev mcs).map ProbeResult.line =
      (mcs.filter (fun mc => phpIsSimpleMagicVariable mc.expression)).map MagicComment.line := by
  induction mcs with
  | nil => rfl
  | cons mc rest ih =>
    unfold phpMagicEntries
    unfold phpMagicEntries at ih
    by_cases h : phpIsSimpleMagicVariable mc.expression
    · cases hev : ev ("$" ++ jsTrim mc.expression) <;>
        simp [List.filterMap_cons, List.filter_cons, h, hev, ih]
    · simp [List.filterMap_cons, List.filter_cons, h, ih]

/-- C3 counterexample: a matched probe annotation whose expression is not a
bare identifier is skipped entirely by the PHP generator, so the returned
list carries no entry for its line. -/
theorem c3_counterexample :
    phpMagicEntries (fun _ => Except.ok JSValue.null) [⟨1, "x->foo"⟩] = [] := by
  rfl

/-- C3 amended: in the JavaScript harness every magic comment contributes
exactly one probe entry with its line number and either a value or an error,
in input order; in the PHP harness only comments whose trimmed expression is
a bare identifier contribute entries, the rest are skipped; both lists are
in non-decreasing line order whenever the input list is. -/
theorem c3_claim :
    ∀ (evalJS evalPHP : String → Except String JSValue) (mcs : List MagicComment),
      List.Pairwise (fun a b => a.line ≤ b.line) mcs →
      ((jsMagicEntries evalJS mcs).map ProbeResult.line = mcs.map MagicComment.line) ∧
      (∀ mc ∈ mcs, ∃ pr ∈ jsMagicEntries evalJS mcs,
        pr.line = mc.line ∧ pr.expression = mc.expression ∧
          (pr.value.isSome ∨ pr.error.isSome)) ∧
      ((phpMagicEntries evalPHP mcs).map ProbeResult.line =
        (mcs.filter (fun mc => phpIsSimpleMagicVariable mc.expression)).map MagicComment.line) ∧
      List.Pairwise (· ≤ ·) ((jsMagicEntries evalJS mcs).map ProbeResult.line) ∧
      List.Pairwise (· ≤ ·) ((phpMagicEntries evalPHP mcs).map ProbeResult.line) := by
  intro evJS evPHP mcs hsorted
  refine ⟨jsMagicEntries_line_map evJS mcs, ?_, phpMagicEntries_line_map evPHP mcs, ?_, ?_⟩
  · intro mc hmc
    refine ⟨_, List.mem_map_of_mem _ hmc, ?_⟩
    cases hev : evJS mc.expression <;> simp [hev]
  · rw [jsMagicEntries_line_map, List.pairwise_map]
    exact hsorted
  · rw [phpMagicEntries_line_map, List.pairwise_map]
    exact hsorted.filter _

/-- C3 witness: the amended statement applied to a concrete probe list with
one identifier probe and one skipped arrow probe. -/
theorem c3_witness :
    ((jsMagicEntries (fun _ => Except.ok JSValue.null) [⟨1, "x"⟩, ⟨2, "y->z"⟩]).map
        ProbeResult.line = ([⟨1, "x"⟩, ⟨2, "y->z"⟩] : List MagicComment).map MagicComment.line) ∧
    (∀ mc ∈ ([⟨1, "x"⟩, ⟨2, "y->z"⟩] : List MagicComment),
      ∃ pr ∈ jsMagicEntries (fun _ => Except.ok JSValue.null) [⟨1, "x"⟩, ⟨2, "y->z"⟩],
        pr.line = mc.line ∧ pr.expression = mc.expression ∧
          (pr.value.isSome ∨ pr.error.isSome)) ∧
    ((phpMagicEntries (fun _ => Except.ok JSValue.null) [⟨1, "x"⟩, ⟨2, "y->z"⟩]).map
        ProbeResult.line =
      (([⟨1, "x"⟩, ⟨2, "y->z"⟩] : List MagicComment).filter
          (fun mc => phpIsSimpleMagicVariable mc.expression)).map MagicComment.line) ∧
    List.Pairwise (· ≤ ·)
      ((jsMagicEntries (fun _ => Except.ok JSValue.null) [⟨1, "x"⟩, ⟨2, "y->z"⟩]).map
        ProbeResult.line) ∧
    List.Pairwise (· ≤ ·)
      ((phpMagicEntries (fun _ => Except.ok JSValue.null) [⟨1, "x"⟩, ⟨2, "y->z"⟩]).map
        ProbeResult.line) :=
  c3_claim (fun _ => Except.ok JSValue.null) (fun _ => Except.ok JSValue.null)
    [⟨1, "x"⟩, ⟨2, "y->z"⟩] (by decide)

theorem indexedFrom_mem {l : List α} {k : Nat} {p : Nat × α} (h : p ∈ indexedFrom k l) :
    k ≤ p.1 ∧ p.1 - k < l.length ∧ l[p.1 - k]? = some p.2 := by
  induction l generalizing k with
  | nil => simp [indexedFrom] at h
  | cons a as ih =>
    simp only [indexedFrom, List.mem_cons] at h
    cases h with
    | inl h =>
      subst h
      simp
    | inr h =>
      obtain ⟨h1, h2, h3⟩ := ih (k := k + 1) h
      refine ⟨by omega, by simp; omega, ?_⟩
      have hidx : p.1 - k = (p.1 - (k + 1)) + 1 := by omega
      rw [hidx]
      simpa using h3

theorem indexedFrom_mem_of {l : List α} {i : Nat} {a : α} (h : l[i]? = some a) (k : Nat) :
    (k + i, a) ∈ indexedFrom k l := by
  induction l generalizing i k with
  | nil => simp at h
  | cons b bs ih =>
    cases i with
    | zero =>
      simp only [List.getElem?_cons_zero, Option.some.injEq] at h
      subst h
      simp [indexedFrom]
    | succ n =>
      simp only [List.getElem?_cons_succ] at h
      have hmem := ih (i := n) h (k + 1)
      simp only [indexedFrom, List.mem_cons]
      right
      have harith : k + (n + 1) = (k + 1) + n := by omega
      rw [harith]
      exact hmem

theorem indexedFrom_pairwise (l : List α) (k : Nat) :
    List.Pairwise (fun p q => p.1 < q.1) (indexedFrom k l) := by
  induction l generalizing k with
  | nil => simp [indexedFrom]
  | cons a as ih =>
    simp only [indexedFrom]
    constructor
    · intro q hq
      have h1 := (indexedFrom_mem hq).1
      show k < q.1
      omega
    · exact ih (k + 1)

/-- C9: the extractor returns the snippet text unchanged, every extracted
magic comment carries a 1-based line number pointing at a matching line and
the trimmed capture of that line, every matching line yields its entry, and
the entries are in strictly increasing line order; the extractor is a total
function of its input. -/
theorem c9_claim :
    ∀ code : String,
      (processMagicComments code).code = code ∧
      (∀ mc ∈ (processMagicComments code).magicComments,
        1 ≤ mc.line ∧ mc.line ≤ (jsSplitNewline code).length ∧
        ∃ cap, ((jsSplitNewline code)[mc.line - 1]?.bind magicCommentCapture) = some cap ∧
          mc.expression = jsTrim cap) ∧
      (∀ i l, (jsSplitNewline code)[i]? = some l → ∀ cap, magicCommentCapture l = some cap →
        (⟨i + 1, jsTrim cap⟩ : MagicComment) ∈ (processMagicComments code).magicComments) ∧
      List.Pairwise (fun a b => a.line < b.line) (processMagicComments code).magicComments := by
  intro code
  refine ⟨?_, ?_, ?_, ?_⟩
  · show joinNewline ((jsSplitNewline code).map fun l =>
      match magicCommentCapture l with
      | some _ => l
      | none => l) = code
    have hmap : ((jsSplitNewline code).map fun l =>
        match magicCommentCapture l with
        | some _ => l
        | none => l) = (jsSplitNewline code).map id := by
      apply List.map_congr_left
      intro a _
      cases h : magicCommentCapture a <;> simp [h]
    rw [hmap, List.map_id]
    exact joinNewline_jsSplitNewline code
  · intro mc hmc
    simp only [processMagicComments] at hmc
    rw [List.mem_filterMap] at hmc
    obtain ⟨p, hp, hg⟩ := hmc
    obtain ⟨hk, hlen, hget⟩ := indexedFrom_mem hp
    simp only [Nat.sub_zero] at hlen hget
    cases hcap : magicCommentCapture p.2 with
    | none => rw [hcap] at hg; simp at hg
    | some cap =>
      rw [hcap] at hg
      simp only [Option.map_some'] at hg
      injection hg with hg
      subst hg
      refine ⟨?_, ?_, cap, ?_, rfl⟩
      · show 1 ≤ p.1 + 1
        omega
      · show p.1 + 1 ≤ (jsSplitNewline code).length
        omega
      · show ((jsSplitNewline code)[p.1 + 1 - 1]?.bind magicCommentCapture) = some cap
        simp only [Nat.add_sub_cancel]
        rw [hget]
        simpa using hcap
  · intro i l hget cap hcap
    simp only [processMagicComments]
    rw [List.mem_filterMap]
    refine ⟨(i, l), ?_, ?_⟩
    · simpa using indexedFrom_mem_of hget 0
    · simp [hcap]
  · simp only [processMagicComments]
    rw [List.pairwise_filterMap]
    apply (indexedFrom_pairwise (jsSplitNewline code) 0).imp
    intro p q hpq x hx y hy
    cases hcp : magicCommentCapture p.2 with
    | none => rw [hcp] at hx; simp at hx
    | some cp =>
      cases hcq : magicCommentCapture q.2 with
      | none => rw [hcq] at hy; simp at hy
      | some cq =>
        rw [hcp] at hx
        rw [hcq] at hy
        simp only [Option.map_some', Option.mem_def, Option.some.injEq] at hx hy
        subst hx
        subst hy
        show p.1 + 1 < q.1 + 1
        omega

/-- C9 witness: the theorem applied at a concrete two-line snippet with one
probe annotation. -/
theorem c9_witness : (processMagicComments "a\n// $x").code = "a\n// $x" :=
  (c9_claim "a\n// $x").1

theorem autoLogStepJS_preserves (st : ALState) (line : String)
    (h : jsInvokesOutputCall line = true) : (autoLogStepJS st line).2 = line := by
  unfold jsInvokesOutputCall at h
  simp only [autoLogStepJS]
  split_ifs <;> rfl

theorem autoLogStepPHP_preserves (st : ALState) (line : String)
    (h : phpInvokesOutputCall line = true) : (autoLogStepPHP st line).2 = line := by
  unfold phpInvokesOutputCall at h
  simp only [autoLogStepPHP]
  split_ifs <;> rfl

theorem autoLogJSGo_length (st : ALState) (ls : List String) :
    (autoLogJSGo st ls).length = ls.length := by
  induction ls generalizing st with
  | nil => rfl
  | cons l rest ih => simp [autoLogJSGo, ih]

theorem autoLogPHPGo_length (st : ALState) (ls : List String) :
    (autoLogPHPGo st ls).length = ls.length := by
  induction ls generalizing st with
  | nil => rfl
  | cons l rest ih => simp [autoLogPHPGo, ih]

theorem autoLogJSGo_preserves (ls : List String) (st : ALState) (i : Nat)
    (h : ls[i]?.map jsInvokesOutputCall = some true) :
    (autoLogJSGo st ls)[i]? = ls[i]? := by
  induction ls generalizing st i with
  | nil => simp at h
  | cons l rest ih =>
    cases i with
    | zero =>
      simp only [List.getElem?_cons_zero, Option.map_some', Option.some.injEq] at h
      simp only [autoLogJSGo, List.getElem?_cons_zero]
      rw [autoLogStepJS_preserves st l h]
    | succ n =>
      simp only [List.getElem?_cons_succ] at h ⊢
      simp only [autoLogJSGo, List.getElem?_cons_succ]
      exact ih _ _ h

theorem autoLogPHPGo_preserves (ls : List String) (st : ALState) (i : Nat)
    (h : ls[i]?.map phpInvokesOutputCall = some true) :
    (autoLogPHPGo st ls)[i]? = ls[i]? := by
  induction ls generalizing st i with
  | nil => simp at h
  | cons l rest ih =>
    cases i with
    | zero =>
      simp only [List.getElem?_cons_zero, Option.map_some', Option.some.injEq] at h
      simp only [autoLogPHPGo, List.getElem?_cons_zero]
      rw [autoLogStepPHP_preserves st l h]
    | succ n =>
      simp only [List.getElem?_cons_succ] at h ⊢
      simp only [autoLogPHPGo, List.getElem?_cons_succ]
      exact ih _ _ h

/-- C8: in both transforms a line already invoking the output call (the
guard normal form: trimmed, trailing semicolon removed, starting with the
output call name) passes through every step unmodified whatever the loop
state is, and the whole pass maps lines one to one, so applying the
transform to its own output never wraps such a line a second time. -/
theorem c8_claim :
    ∀ (st : ALState) (jsLines phpLines : List String) (i j : Nat),
      (jsLines[i]?.map jsInvokesOutputCall = some true →
        (autoLogJSGo st jsLines)[i]? = jsLines[i]?) ∧
      (phpLines[j]?.map phpInvokesOutputCall = some true →
        (autoLogPHPGo st phpLines)[j]? = phpLines[j]?) ∧
      (autoLogJSGo st jsLines).length = jsLines.length ∧
      (autoLogPHPGo st phpLines).length = phpLines.length :=
  fun st jsLines phpLines i j =>
    ⟨autoLogJSGo_preserves jsLines st i, autoLogPHPGo_preserves phpLines st j,
     autoLogJSGo_length st jsLines, autoLogPHPGo_length st phpLines⟩

/-- C8 witness: the theorem applied to concrete already-wrapped lines. -/
theorem c8_witness :
    (autoLogJSGo autoLogInit ["console.log(1);"])[0]? = (["console.log(1);"] : List String)[0]? ∧
    (autoLogPHPGo autoLogInit ["echo $x;"])[0]? = (["echo $x;"] : List String)[0]? :=
  ⟨(c8_claim autoLogInit ["console.log(1);"] ["echo $x;"] 0 0).1 rfl,
   (c8_claim autoLogInit ["console.log(1);"] ["echo $x;"] 0 0).2.1 rfl⟩
